import Mathlib

/-! Verification of the f1_tire_deg pipeline.

Shallow embedding of `scripts/01_fetch_data.py` (`pit_table_from_laps`) and
`scripts/02_analyze_stints.py` (`read_laps`, `is_green`, `drop_in_out`,
`per_driver_pace_filter`, `clean_laps`, `stint_summary`, `simple_deg_fit`,
`main`).  Durations, timestamps and numeric columns are modelled as exact
rationals; nullable cells as `Option`; a data frame as a list of typed rows
plus a record of which columns are present. -/

/-- One row of the lap table, with the columns the scripts use.  `lapTime`,
`pitInTime` and `pitOutTime` are in seconds (`pd.to_timedelta` values); a
missing cell is `none`. -/
structure Lap where
  driver : Option String
  team : Option String
  lapNumber : Option ℚ
  lapTime : Option ℚ
  compound : Option String
  stint : Option ℚ
  tyreLife : Option ℚ
  pitInTime : Option ℚ
  pitOutTime : Option ℚ
  trackStatus : Option String
deriving DecidableEq

/-- `is_green`: keep laps whose `TrackStatus`, as a stripped string, is `"1"`;
a missing status is treated as green (`track_status.isna() | (s == "1")`). -/
def is_green (ts : Option String) : Bool :=
  match ts with
  | none => true
  | some s => decide (s.trim = "1")

/-- `drop_in_out`: keep rows where both `PitOutTime` and `PitInTime` are null. -/
def drop_in_out (df : List Lap) : List Lap :=
  df.filter (fun l => l.pitOutTime.isNone && l.pitInTime.isNone)

/-- Pair every row with its positional index (the data-frame row label),
starting from `i`; models the index of a pandas frame. -/
def withIdx : ℕ → List Lap → List (ℕ × Lap)
  | _, [] => []
  | i, l :: ls => (i, l) :: withIdx (i + 1) ls

/-- Linear interpolation into a (sorted) sample at virtual position `h`:
`a⌊h⌋ + (h - ⌊h⌋) * (a⌊h⌋₊₁ - a⌊h⌋)`, the arithmetic `np.percentile` performs
with its default interpolation. -/
def interpolate (ys : List ℚ) (h : ℚ) : ℚ :=
  let i : ℕ := (⌊h⌋).toNat
  let lo := ys.getD i 0
  let hi := ys.getD (i + 1) lo
  lo + (h - (i : ℚ)) * (hi - lo)

/-- `np.percentile(xs, p)`: sort the sample and linearly interpolate at
virtual position `p / 100 * (n - 1)`. -/
def percentile (xs : List ℚ) (p : ℚ) : ℚ :=
  interpolate (List.insertionSort (· ≤ ·) xs) (p / 100 * ((xs.length : ℚ) - 1))

/-- The upper fence of `per_driver_pace_filter`:
`q3 + 1.5 * (q3 - q1)` with `q1`/`q3` the 25th/75th percentiles. -/
def fenceOf (ts : List ℚ) : ℚ :=
  let q1 := percentile ts 25
  let q3 := percentile ts 75
  q3 + 1.5 * (q3 - q1)

/-- The rows of driver `d` (the group `g` of `x.groupby("Driver", dropna=False)`)
that have a valid lap time (`gt = g.dropna(subset=["LapTime_s"])`), with their
frame indices. -/
def validRows (xs : List Lap) (d : Option String) : List (ℕ × Lap) :=
  ((withIdx 0 xs).filter (fun p => decide (p.2.driver = d))).filter
    (fun p => p.2.lapTime.isSome)

/-- The valid lap times (seconds) of driver `d`, `gt["LapTime_s"]`. -/
def groupTimes (xs : List Lap) (d : Option String) : List ℚ :=
  (validRows xs d).filterMap (fun p => p.2.lapTime)

/-- Index-free form of `groupTimes`: the valid lap times of the rows of
driver `d`, showing the sample depends only on that driver's own rows. -/
def driverTimes (xs : List Lap) (d : Option String) : List ℚ :=
  ((xs.filter (fun l => decide (l.driver = d))).filter
    (fun l => l.lapTime.isSome)).filterMap (fun l => l.lapTime)

/-- Indices of driver `d`'s rows kept by the pace filter: an empty group with
no valid lap time is skipped (`continue`), otherwise the indices of
`gt.loc[gt["LapTime_s"] <= fence]`. -/
def keptIdx (xs : List Lap) (d : Option String) : List ℕ :=
  if (validRows xs d).isEmpty then []
  else
    ((validRows xs d).filter
      (fun p => decide (p.2.lapTime.getD 0 ≤ fenceOf (groupTimes xs d)))).map
      (fun p => p.1)

/-- The group keys of `x.groupby("Driver", dropna=False)`. -/
def driversOf (xs : List Lap) : List (Option String) :=
  (xs.map (fun l => l.driver)).dedup

/-- `per_driver_pace_filter`: per driver, drop rows with a missing lap time and
keep rows at or below the Tukey upper fence of that driver's lap times.  If no
group contributed any index (`if keep_idx` on the empty list), the source falls
back to `x.index` and every row of the input is returned unchanged. -/
def per_driver_pace_filter (xs : List Lap) : List Lap :=
  if xs.any (fun l => l.lapTime.isSome) then
    ((withIdx 0 xs).filter
      (fun p => decide (p.1 ∈ (driversOf xs).flatMap (fun d => keptIdx xs d)))).map
      (fun p => p.2)
  else xs

/-- Which of the ten columns of `need` are present in the raw frame. -/
structure ColPresence where
  driver : Bool
  team : Bool
  lapNumber : Bool
  lapTime : Bool
  compound : Bool
  stint : Bool
  tyreLife : Bool
  pitInTime : Bool
  pitOutTime : Bool
  trackStatus : Bool
deriving DecidableEq

/-- The presence record with every column present. -/
def ColPresence.all : ColPresence :=
  ⟨true, true, true, true, true, true, true, true, true, true⟩

/-- A raw data frame: which columns exist, and the typed rows. -/
structure LapFrame where
  cols : ColPresence
  rows : List Lap
deriving DecidableEq

/-- Reading a row through a presence record: a cell of an absent column is
missing (the `df[c] = pd.NA` synthesis writes a whole-column `NA`). -/
def applyPresence (p : ColPresence) (l : Lap) : Lap where
  driver := if p.driver then l.driver else none
  team := if p.team then l.team else none
  lapNumber := if p.lapNumber then l.lapNumber else none
  lapTime := if p.lapTime then l.lapTime else none
  compound := if p.compound then l.compound else none
  stint := if p.stint then l.stint else none
  tyreLife := if p.tyreLife then l.tyreLife else none
  pitInTime := if p.pitInTime then l.pitInTime else none
  pitOutTime := if p.pitOutTime then l.pitOutTime else none
  trackStatus := if p.trackStatus then l.trackStatus else none

/-- `clean_laps`: synthesize each absent column of `need` as all-missing
(`df[c] = pd.NA`, an object-dtype column), then filter to valid lap times,
green laps, non-in/out laps, and per-driver pace.  When `LapTime` was present
in the input it is timedelta-typed (parsed by `read_laps`) and the pipeline
runs to completion; when `LapTime` was absent, the synthesized column is
object dtype and `x["LapTime"].dt.total_seconds()` inside
`per_driver_pace_filter` raises `AttributeError` (pandas checks the dtype
before looking at any value, so the earlier `notna()` filter emptying the
frame does not help), aborting the pipeline.  Every other synthesized column
is only read through dtype-agnostic operations (`isna`, `astype(str)`,
`groupby`, `to_numeric`) and raises nothing.  The `TyreLife` numeric coercion
and the derived `LapTime_s` column are identities in this typed model. -/
def clean_laps (fr : LapFrame) : Except String (List Lap) :=
  if fr.cols.lapTime = true then
    Except.ok (per_driver_pace_filter (drop_in_out
      (((fr.rows.map (applyPresence fr.cols)).filter
        (fun l => l.lapTime.isSome)).filter
          (fun l => is_green l.trackStatus))))
  else Except.error "Can only use .dt accessor with datetimelike values"

/-- Comparator on optional values with missing values last, as pandas sorts
`NaN` keys: `none` compares greater than any value. -/
def optLTb [LT α] [DecidableRel (α := α) (· < ·)] : Option α → Option α → Bool
  | none, _ => false
  | some _, none => true
  | some a, some b => decide (a < b)

/-- Non-strict companion of `optLTb`, again with `none` last. -/
def optLEb [LE α] [DecidableRel (α := α) (· ≤ ·)] : Option α → Option α → Bool
  | _, none => true
  | none, some _ => false
  | some a, some b => decide (a ≤ b)

/-- One row of the stint summary table. -/
structure StintRow where
  driver : Option String
  stint : Option ℚ
  compound : Option String
  laps : ℕ
  start_lap : Option ℚ
  end_lap : Option ℚ
  mean_pace_s : Option ℚ
  median_pace_s : Option ℚ
deriving DecidableEq

/-- The grouping key of `stint_summary`. -/
def stintKey (l : Lap) : Option String × Option ℚ × Option String :=
  (l.driver, l.stint, l.compound)

/-- Lexicographic order on the `(Driver, Stint, Compound)` key, missing values
last in each component: the order `groupby(..., dropna=False)` enumerates
groups in, which the final `sort_values(["Driver", "Stint"])` (a stable sort on
a prefix of the same key) leaves unchanged. -/
def stintKeyLEb (k k' : Option String × Option ℚ × Option String) : Bool :=
  optLTb k.1 k'.1 || (decide (k.1 = k'.1) &&
    (optLTb k.2.1 k'.2.1 || (decide (k.2.1 = k'.2.1) && optLEb k.2.2 k'.2.2)))

/-- The distinct grouping keys of the frame. -/
def stintKeys (df : List Lap) : List (Option String × Option ℚ × Option String) :=
  (df.map stintKey).dedup

/-- The rows of one `(driver, stint, compound)` group. -/
def stintGroup (df : List Lap) (k : Option String × Option ℚ × Option String) :
    List Lap :=
  df.filter (fun l => decide (stintKey l = k))

/-- The aggregate row of one group: `count`, `min` and `max` of `LapNumber`
and `mean` and `median` of `LapTime_s`, each pandas aggregation acting on the
non-missing cells only (an all-missing column aggregates to `NaN`, and `count`
counts the non-missing cells). -/
def stintAgg (df : List Lap) (k : Option String × Option ℚ × Option String) :
    StintRow :=
  let g := stintGroup df k
  let nums := g.filterMap (fun l => l.lapNumber)
  let times := g.filterMap (fun l => l.lapTime)
  ⟨k.1, k.2.1, k.2.2, nums.length, nums.min?, nums.max?,
    if times.isEmpty then none else some (times.sum / (times.length : ℚ)),
    if times.isEmpty then none else some (percentile times 50)⟩

/-- `stint_summary`: group the cleaned laps by `(Driver, Stint, Compound)` with
missingness a valid key, aggregate each group, and sort by `(Driver, Stint)`. -/
def stint_summary (df : List Lap) : List StintRow :=
  (List.insertionSort (fun k k' => stintKeyLEb k k' = true) (stintKeys df)).map
    (stintAgg df)

/-- One row of the degradation-fit table.  The source stores
`rmse = sqrt(mean((y - yhat)^2))`; the square root of a rational is not
rational, so the model stores the mean squared residual `mse` itself. -/
structure DegRow where
  compound : String
  intercept_s : ℚ
  slope_s_per_lap : ℚ
  n : ℕ
  mse : ℚ
deriving DecidableEq

/-- `z = df.dropna(subset=["LapTime_s", "TyreLife", "Compound"])`. -/
def degInput (xs : List Lap) : List Lap :=
  xs.filter (fun l => l.lapTime.isSome && l.tyreLife.isSome && l.compound.isSome)

/-- The rows of one compound group of `z.groupby("Compound")`. -/
def degGroup (xs : List Lap) (c : String) : List Lap :=
  (degInput xs).filter (fun l => decide (l.compound = some c))

/-- The distinct compounds appearing in `z`. -/
def degCompounds (xs : List Lap) : List String :=
  ((degInput xs).filterMap (fun l => l.compound)).dedup

/-- The guard of `simple_deg_fit`: a group is fitted unless
`len(g) < 20 or g["TyreLife"].nunique() < 3`. -/
def degQualifies (xs : List Lap) (c : String) : Bool :=
  decide (20 ≤ (degGroup xs c).length) &&
    decide (3 ≤ ((degGroup xs c).filterMap (fun l => l.tyreLife)).dedup.length)

/-- The fitted row for one compound: `np.polyfit(x, y, 1)` computes the
least-squares line, whose closed form on a full-rank sample is
`b = (n Σxy - Σx Σy) / (n Σx² - (Σx)²)`, `a = (Σy - b Σx) / n`; the residual
diagnostic is the mean squared residual (see `DegRow.mse`). -/
def fitRow (xs : List Lap) (c : String) : DegRow :=
  let g := degGroup xs c
  let pts : List (ℚ × ℚ) := g.filterMap (fun l =>
    match l.tyreLife, l.lapTime with
    | some x, some y => some (x, y)
    | _, _ => none)
  let n : ℚ := (pts.length : ℚ)
  let sx := (pts.map (fun q => q.1)).sum
  let sy := (pts.map (fun q => q.2)).sum
  let sxx := (pts.map (fun q => q.1 * q.1)).sum
  let sxy := (pts.map (fun q => q.1 * q.2)).sum
  let b := (n * sxy - sx * sy) / (n * sxx - sx * sx)
  let a := (sy - b * sx) / n
  ⟨c, a, b, g.length, ((pts.map (fun q => (q.2 - (a + b * q.1)) ^ 2)).sum) / n⟩

/-- The `results` list of `simple_deg_fit`: over the compound groups of `z`
(enumerated in sorted key order), skip groups failing `degQualifies` and emit
one fitted row each; already in final compound order, which the trailing
`sort_values("Compound")` leaves unchanged. -/
def degFitRows (xs : List Lap) : List DegRow :=
  ((List.insertionSort (fun a b : String => a ≤ b) (degCompounds xs)).filter
    (fun c => degQualifies xs c)).map (fun c => fitRow xs c)

/-- `simple_deg_fit`: build the fitted rows and sort the frame by compound.
When no compound qualifies, `results` is empty, `pd.DataFrame([])` has no
columns at all, and `.sort_values("Compound")` raises `KeyError: 'Compound'`,
aborting the job; otherwise the sorted frame is returned. -/
def simple_deg_fit (xs : List Lap) : Except String (List DegRow) :=
  if (degFitRows xs).isEmpty then Except.error "KeyError: Compound"
  else Except.ok (degFitRows xs)

/-- One row of the derived pit-stop table: the source lap row (with
`InLap = lapNumber`, `InTime = pitInTime`, `OutTime = pitOutTime` after the
renames) and the assigned `Stop` number.  `groupby("Driver").cumcount()`
leaves rows with a missing driver unnumbered. -/
structure PitRow where
  lap : Lap
  stop : Option ℕ
deriving DecidableEq

/-- The `sort_values(["Driver", "InLap"])` order on pit rows: by driver, then
by in-lap number, missing values last. -/
def pitLEb (a b : Lap) : Bool :=
  optLTb a.driver b.driver ||
    (decide (a.driver = b.driver) && optLEb a.lapNumber b.lapNumber)

/-- `pitLEb` as a relation, for `List.insertionSort`. -/
def pitLE (a b : Lap) : Prop := pitLEb a b = true

instance : DecidableRel pitLE := fun a b => by unfold pitLE; infer_instance

/-- `groupby("Driver").cumcount() + 1`: number each row one past the count of
earlier rows with the same driver, threading the per-driver counts. -/
def cumcountAux (cnt : String → ℕ) : List Lap → List PitRow
  | [] => []
  | l :: ls =>
    match l.driver with
    | none => ⟨l, none⟩ :: cumcountAux cnt ls
    | some d =>
      ⟨l, some (cnt d + 1)⟩ ::
        cumcountAux (fun e => if e = d then cnt d + 1 else cnt e) ls

/-- `pit_table_from_laps`: keep rows with a non-null `PitInTime`, sort by
`(Driver, InLap)`, and assign 1-based per-driver stop numbers. -/
def pit_table_from_laps (laps : List Lap) : List PitRow :=
  let pitlaps := laps.filter (fun l => l.pitInTime.isSome)
  cumcountAux (fun _ => 0) (List.insertionSort pitLE pitlaps)

/-- The world the cleaning job runs in: the raw laps file, if present. -/
structure JobEnv where
  rawLaps : Option LapFrame
deriving DecidableEq

/-- Observable outcome of a run of the cleaning job: the process exit status
and the line printed to the error stream, if any. -/
structure RunResult where
  exitCode : ℕ
  stderrLine : Option String
deriving DecidableEq

/-- `read_laps`: raise `FileNotFoundError` with the message naming the fetch
script when the raw laps file is absent, else return the parsed frame. -/
def read_laps (env : JobEnv) : Except String LapFrame :=
  match env.rawLaps with
  | none => Except.error "raw laps not found; run scripts/01_fetch_data.py first"
  | some fr => Except.ok fr

/-- The body of `main`'s `try` block: read, clean, summarize, fit (in the
source's order; `stint_summary` raises nothing). -/
def runJob (env : JobEnv) :
    Except String (List Lap × List StintRow × List DegRow) := do
  let raw ← read_laps env
  let cl ← clean_laps raw
  let deg ← simple_deg_fit cl
  pure (cl, stint_summary cl, deg)

/-- `main`: run the job; on success exit 0, on any exception print
`error: {e}` to stderr and exit 1. -/
def main_run (env : JobEnv) : RunResult :=
  match runJob env with
  | Except.ok _ => ⟨0, none⟩
  | Except.error e => ⟨1, some ("error: " ++ e)⟩

/-! ### Helper lemmas about indexed rows -/

lemma withIdx_fst_ge (i : ℕ) (xs : List Lap) (p : ℕ × Lap)
    (hp : p ∈ withIdx i xs) : i ≤ p.1 := by
  induction xs generalizing i with
  | nil => simp [withIdx] at hp
  | cons l ls ih =>
    simp only [withIdx, List.mem_cons] at hp
    rcases hp with h | h
    · subst h; exact Nat.le_refl i
    · exact Nat.le_of_succ_le (ih (i + 1) h)

lemma withIdx_snd_mem (i : ℕ) (xs : List Lap) (p : ℕ × Lap)
    (hp : p ∈ withIdx i xs) : p.2 ∈ xs := by
  induction xs generalizing i with
  | nil => simp [withIdx] at hp
  | cons l ls ih =>
    simp only [withIdx, List.mem_cons] at hp
    rcases hp with h | h
    · subst h; exact List.mem_cons_self _ _
    · exact List.mem_cons_of_mem _ (ih (i + 1) h)

lemma withIdx_inj (i : ℕ) (xs : List Lap) {j : ℕ} {a b : Lap}
    (ha : (j, a) ∈ withIdx i xs) (hb : (j, b) ∈ withIdx i xs) : a = b := by
  induction xs generalizing i with
  | nil => simp [withIdx] at ha
  | cons l ls ih =>
    simp only [withIdx, List.mem_cons, Prod.mk.injEq] at ha hb
    rcases ha with ⟨hj, ha⟩ | ha
    · rcases hb with ⟨hj', hb⟩ | hb
      · rw [ha, hb]
      · exfalso; have := withIdx_fst_ge (i + 1) ls (j, b) hb; omega
    · rcases hb with ⟨hj', hb⟩ | hb
      · exfalso; have := withIdx_fst_ge (i + 1) ls (j, a) ha; omega
      · exact ih (i + 1) ha hb

lemma withIdx_mem_of_mem (i : ℕ) (xs : List Lap) (a : Lap) (ha : a ∈ xs) :
    ∃ j, (j, a) ∈ withIdx i xs := by
  induction xs generalizing i with
  | nil => cases ha
  | cons l ls ih =>
    rcases List.mem_cons.1 ha with h | h
    · exact ⟨i, by simp [withIdx, h]⟩
    · obtain ⟨j, hj⟩ := ih (i + 1) h
      exact ⟨j, List.mem_cons.2 (Or.inr hj)⟩

lemma withIdx_filter_map (q : Lap → Bool) (i : ℕ) (xs : List Lap) :
    ((withIdx i xs).filter (fun p => q p.2)).map (fun p => p.2) = xs.filter q := by
  induction xs generalizing i with
  | nil => rfl
  | cons l ls ih =>
    rcases hq : q l with _ | _ <;>
      simp [withIdx, List.filter_cons, hq, ih (i + 1)]

lemma withIdx_filter_filterMap (q : Lap → Bool) (f : Lap → Option ℚ) (i : ℕ)
    (xs : List Lap) :
    ((withIdx i xs).filter (fun p => q p.2)).filterMap (fun p => f p.2) =
      (xs.filter q).filterMap f := by
  rw [← withIdx_filter_map q i xs, List.filterMap_map]
  rfl

lemma groupTimes_eq_driverTimes (xs : List Lap) (d : Option String) :
    groupTimes xs d = driverTimes xs d := by
  unfold groupTimes driverTimes validRows
  rw [List.filter_filter, List.filter_filter]
  exact withIdx_filter_filterMap
    (fun l => l.lapTime.isSome && decide (l.driver = d)) (fun l => l.lapTime) 0 xs

/-! ### Characterization of the pace filter -/

lemma mem_kept_iff (xs : List Lap) (j : ℕ) (l : Lap)
    (hjl : (j, l) ∈ withIdx 0 xs) :
    (j ∈ (driversOf xs).flatMap (fun d => keptIdx xs d)) ↔
      ∃ t, l.lapTime = some t ∧ t ≤ fenceOf (driverTimes xs l.driver) := by
  constructor
  · intro hj
    obtain ⟨d, hd, hjd⟩ := List.mem_flatMap.1 hj
    rw [keptIdx] at hjd
    split at hjd
    · cases hjd
    · obtain ⟨q, hq, hq1⟩ := List.mem_map.1 hjd
      have hqv : q ∈ validRows xs d := List.mem_of_mem_filter hq
      have hcond : decide (q.2.lapTime.getD 0 ≤ fenceOf (groupTimes xs d)) = true :=
        (List.mem_filter.1 hq).2
      have hqA : q ∈ (withIdx 0 xs).filter (fun p => decide (p.2.driver = d)) :=
        List.mem_of_mem_filter hqv
      have hB : q.2.lapTime.isSome = true := (List.mem_filter.1 hqv).2
      have hA : q.2.driver = d := of_decide_eq_true (List.mem_filter.1 hqA).2
      have hqW : q ∈ withIdx 0 xs := List.mem_of_mem_filter hqA
      have hql : q.2 = l := by
        apply withIdx_inj 0 xs (b := l) _ hjl
        rw [← hq1]
        exact hqW
      obtain ⟨t, ht⟩ := Option.isSome_iff_exists.1 hB
      refine ⟨t, by rw [← hql]; exact ht, ?_⟩
      rw [groupTimes_eq_driverTimes] at hcond
      have := of_decide_eq_true hcond
      rw [ht, Option.getD_some] at this
      rw [← hql, hA]
      exact this
  · rintro ⟨t, ht, hle⟩
    refine List.mem_flatMap.2 ⟨l.driver, ?_, ?_⟩
    · exact List.mem_dedup.2
        (List.mem_map.2 ⟨l, withIdx_snd_mem 0 xs (j, l) hjl, rfl⟩)
    · have hmemv : (j, l) ∈ validRows xs l.driver := by
        unfold validRows
        exact List.mem_filter.2
          ⟨List.mem_filter.2 ⟨hjl, by simp⟩, by simp [ht]⟩
      rw [keptIdx, if_neg (by
        intro hempty
        rw [List.isEmpty_iff] at hempty
        rw [hempty] at hmemv
        cases hmemv)]
      refine List.mem_map.2 ⟨(j, l), List.mem_filter.2 ⟨hmemv, ?_⟩, rfl⟩
      simp only [ht, Option.getD_some, groupTimes_eq_driverTimes]
      exact decide_eq_true hle

lemma pace_filter_eq_filter (xs : List Lap)
    (hx : ∃ l ∈ xs, l.lapTime.isSome = true) :
    per_driver_pace_filter xs = xs.filter (fun l =>
      match l.lapTime with
      | none => false
      | some t => decide (t ≤ fenceOf (driverTimes xs l.driver))) := by
  unfold per_driver_pace_filter
  obtain ⟨l0, hl0, hs0⟩ := hx
  rw [if_pos (List.any_eq_true.2 ⟨l0, hl0, hs0⟩)]
  have hcong : ((withIdx 0 xs).filter
      (fun p => decide (p.1 ∈ (driversOf xs).flatMap (fun d => keptIdx xs d)))) =
      ((withIdx 0 xs).filter (fun p =>
        (fun l : Lap => match l.lapTime with
          | none => false
          | some t => decide (t ≤ fenceOf (driverTimes xs l.driver))) p.2)) := by
    apply List.filter_congr
    rintro ⟨j, l⟩ hp
    have hiff := mem_kept_iff xs j l hp
    rcases hl : l.lapTime with _ | t
    · have hnot : ¬ (j ∈ (driversOf xs).flatMap (fun d => keptIdx xs d)) := by
        intro h
        obtain ⟨t, ht, _⟩ := hiff.1 h
        rw [hl] at ht
        cases ht
      simp only [decide_eq_false hnot, hl]
    · simp only [hl]
      apply decide_eq_decide.2
      constructor
      · intro h
        obtain ⟨t', ht', hle'⟩ := hiff.1 h
        rw [hl] at ht'
        cases ht'
        exact hle'
      · intro h
        exact hiff.2 ⟨t, hl, h⟩
  rw [hcong]
  exact withIdx_filter_map (fun l : Lap => match l.lapTime with
    | none => false
    | some t => decide (t ≤ fenceOf (driverTimes xs l.driver))) 0 xs

/-! ### Bounds on linear-interpolation percentiles -/

lemma sorted_getD_le (ys : List ℚ) (hs : List.Sorted (· ≤ ·) ys) (i j : ℕ)
    (hij : i ≤ j) (hj : j < ys.length) : ys.getD i 0 ≤ ys.getD j 0 := by
  have hi : i < ys.length := lt_of_le_of_lt hij hj
  rw [List.getD_eq_getElem ys 0 hi, List.getD_eq_getElem ys 0 hj]
  have := hs.rel_get_of_le (a := ⟨i, hi⟩) (b := ⟨j, hj⟩) hij
  simpa using this

lemma interpolate_ge_lo (ys : List ℚ) (hs : List.Sorted (· ≤ ·) ys) (b : ℚ)
    (hb0 : 0 ≤ b) (hb1 : b ≤ (ys.length : ℚ) - 1) :
    ys.getD (⌊b⌋.toNat) 0 ≤ interpolate ys b := by
  have hfl0 : (0 : ℤ) ≤ ⌊b⌋ := Int.floor_nonneg.2 hb0
  have h2 : ((⌊b⌋.toNat : ℚ)) = ((⌊b⌋ : ℤ) : ℚ) := by
    exact_mod_cast Int.toNat_of_nonneg hfl0
  have hiq : ((⌊b⌋.toNat : ℚ)) ≤ b := by rw [h2]; exact Int.floor_le b
  have hin : ⌊b⌋.toNat < ys.length := by
    by_contra hc
    push_neg at hc
    have : ((ys.length : ℚ)) ≤ ((⌊b⌋.toNat : ℚ)) := by exact_mod_cast hc
    linarith
  simp only [interpolate]
  have hhi : ys.getD (⌊b⌋.toNat) 0 ≤
      ys.getD (⌊b⌋.toNat + 1) (ys.getD (⌊b⌋.toNat) 0) := by
    rcases lt_or_ge (⌊b⌋.toNat + 1) ys.length with hc | hc
    · rw [List.getD_eq_getElem ys _ hc, ← List.getD_eq_getElem ys 0 hc]
      exact sorted_getD_le ys hs _ _ (Nat.le_succ _) hc
    · rw [List.getD_eq_default ys _ hc]
  nlinarith [mul_nonneg (sub_nonneg.2 hiq) (sub_nonneg.2 hhi)]

lemma interpolate_le_hi (ys : List ℚ) (hs : List.Sorted (· ≤ ·) ys) (a : ℚ)
    (ha0 : 0 ≤ a) (ha1 : a ≤ (ys.length : ℚ) - 1) :
    interpolate ys a ≤ ys.getD (⌊a⌋.toNat + 1) (ys.getD (⌊a⌋.toNat) 0) := by
  have hfl0 : (0 : ℤ) ≤ ⌊a⌋ := Int.floor_nonneg.2 ha0
  have h2 : ((⌊a⌋.toNat : ℚ)) = ((⌊a⌋ : ℤ) : ℚ) := by
    exact_mod_cast Int.toNat_of_nonneg hfl0
  have hlt : a < ((⌊a⌋.toNat : ℚ)) + 1 := by rw [h2]; exact Int.lt_floor_add_one a
  have hin : ⌊a⌋.toNat < ys.length := by
    have hiq : ((⌊a⌋.toNat : ℚ)) ≤ a := by rw [h2]; exact Int.floor_le a
    by_contra hc
    push_neg at hc
    have : ((ys.length : ℚ)) ≤ ((⌊a⌋.toNat : ℚ)) := by exact_mod_cast hc
    linarith
  simp only [interpolate]
  have hhi : ys.getD (⌊a⌋.toNat) 0 ≤
      ys.getD (⌊a⌋.toNat + 1) (ys.getD (⌊a⌋.toNat) 0) := by
    rcases lt_or_ge (⌊a⌋.toNat + 1) ys.length with hc | hc
    · rw [List.getD_eq_getElem ys _ hc, ← List.getD_eq_getElem ys 0 hc]
      exact sorted_getD_le ys hs _ _ (Nat.le_succ _) hc
    · rw [List.getD_eq_default ys _ hc]
  nlinarith [mul_nonneg (sub_nonneg.2 (le_of_lt hlt)) (sub_nonneg.2 hhi)]

lemma interpolate_mono (ys : List ℚ) (hs : List.Sorted (· ≤ ·) ys) {a b : ℚ}
    (ha0 : 0 ≤ a) (hab : a ≤ b) (hb1 : b ≤ (ys.length : ℚ) - 1) :
    interpolate ys a ≤ interpolate ys b := by
  have hb0 : 0 ≤ b := le_trans ha0 hab
  have ha1 : a ≤ (ys.length : ℚ) - 1 := le_trans hab hb1
  have hflab : ⌊a⌋ ≤ ⌊b⌋ := Int.floor_le_floor hab
  have hij : ⌊a⌋.toNat ≤ ⌊b⌋.toNat := Int.toNat_le_toNat hflab
  have hfl0a : (0 : ℤ) ≤ ⌊a⌋ := Int.floor_nonneg.2 ha0
  have h2a : ((⌊a⌋.toNat : ℚ)) = ((⌊a⌋ : ℤ) : ℚ) := by
    exact_mod_cast Int.toNat_of_nonneg hfl0a
  have hfl0b : (0 : ℤ) ≤ ⌊b⌋ := Int.floor_nonneg.2 hb0
  have h2b : ((⌊b⌋.toNat : ℚ)) = ((⌊b⌋ : ℤ) : ℚ) := by
    exact_mod_cast Int.toNat_of_nonneg hfl0b
  have hjn : ⌊b⌋.toNat < ys.length := by
    have hiq : ((⌊b⌋.toNat : ℚ)) ≤ b := by rw [h2b]; exact Int.floor_le b
    by_contra hc
    push_neg at hc
    have : ((ys.length : ℚ)) ≤ ((⌊b⌋.toNat : ℚ)) := by exact_mod_cast hc
    linarith
  rcases Nat.eq_or_lt_of_le hij with heq | hlt
  · have hiqa : ((⌊a⌋.toNat : ℚ)) ≤ a := by rw [h2a]; exact Int.floor_le a
    have hin : ⌊a⌋.toNat < ys.length := heq ▸ hjn
    have hhi : ys.getD (⌊a⌋.toNat) 0 ≤
        ys.getD (⌊a⌋.toNat + 1) (ys.getD (⌊a⌋.toNat) 0) := by
      rcases lt_or_ge (⌊a⌋.toNat + 1) ys.length with hc | hc
      · rw [List.getD_eq_getElem ys _ hc, ← List.getD_eq_getElem ys 0 hc]
        exact sorted_getD_le ys hs _ _ (Nat.le_succ _) hc
      · rw [List.getD_eq_default ys _ hc]
    simp only [interpolate, ← heq]
    nlinarith [mul_nonneg (sub_nonneg.2 hab) (sub_nonneg.2 hhi)]
  · have h1 : interpolate ys a ≤
        ys.getD (⌊a⌋.toNat + 1) (ys.getD (⌊a⌋.toNat) 0) :=
      interpolate_le_hi ys hs a ha0 ha1
    have hsucc : ⌊a⌋.toNat + 1 < ys.length := lt_of_le_of_lt hlt hjn
    have h2 : ys.getD (⌊a⌋.toNat + 1) (ys.getD (⌊a⌋.toNat) 0) ≤
        ys.getD (⌊b⌋.toNat) 0 := by
      rw [List.getD_eq_getElem ys _ hsucc, ← List.getD_eq_getElem ys 0 hsucc]
      exact sorted_getD_le ys hs _ _ hlt hjn
    have h3 : ys.getD (⌊b⌋.toNat) 0 ≤ interpolate ys b :=
      interpolate_ge_lo ys hs b hb0 hb1
    linarith

lemma percentile_le_percentile (xs : List ℚ) (hne : xs ≠ []) {p q : ℚ}
    (hp0 : 0 ≤ p) (hpq : p ≤ q) (hq : q ≤ 100) :
    percentile xs p ≤ percentile xs q := by
  unfold percentile
  have hs : List.Sorted (· ≤ ·) (List.insertionSort (· ≤ ·) xs) :=
    List.sorted_insertionSort _ xs
  have hlen : (List.insertionSort (· ≤ ·) xs).length = xs.length :=
    (List.perm_insertionSort _ xs).length_eq
  have hn1 : 0 < xs.length := List.length_pos.2 hne
  have hxq : (1 : ℚ) ≤ ((xs.length : ℚ)) := by exact_mod_cast hn1
  apply interpolate_mono _ hs
  · exact mul_nonneg (div_nonneg hp0 (by norm_num)) (by linarith)
  · nlinarith [mul_nonneg (by linarith : (0:ℚ) ≤ (q - p) / 100)
      (by linarith : (0:ℚ) ≤ ((xs.length : ℚ)) - 1)]
  · rw [hlen]
    nlinarith [mul_nonneg (by linarith : (0:ℚ) ≤ 1 - q / 100)
      (by linarith : (0:ℚ) ≤ ((xs.length : ℚ)) - 1)]

lemma exists_mem_le_percentile (xs : List ℚ) (hne : xs ≠ []) {p : ℚ}
    (hp0 : 0 ≤ p) (hp1 : p ≤ 100) : ∃ t ∈ xs, t ≤ percentile xs p := by
  have hs : List.Sorted (· ≤ ·) (List.insertionSort (· ≤ ·) xs) :=
    List.sorted_insertionSort _ xs
  have hlen : (List.insertionSort (· ≤ ·) xs).length = xs.length :=
    (List.perm_insertionSort _ xs).length_eq
  have hn1 : 0 < xs.length := List.length_pos.2 hne
  have hxq : (1 : ℚ) ≤ ((xs.length : ℚ)) := by exact_mod_cast hn1
  have hpos : 0 < (List.insertionSort (· ≤ ·) xs).length := by rw [hlen]; exact hn1
  refine ⟨(List.insertionSort (· ≤ ·) xs).getD 0 0, ?_, ?_⟩
  · rw [List.getD_eq_getElem _ 0 hpos]
    exact (List.perm_insertionSort (· ≤ ·) xs).mem_iff.1 (List.getElem_mem hpos)
  · unfold percentile
    have h0 : (0:ℚ) ≤ p / 100 * (((xs.length : ℚ)) - 1) :=
      mul_nonneg (div_nonneg hp0 (by norm_num)) (by linarith)
    have h1 : p / 100 * (((xs.length : ℚ)) - 1) ≤
        ((List.insertionSort (· ≤ ·) xs).length : ℚ) - 1 := by
      rw [hlen]
      nlinarith [mul_nonneg (by linarith : (0:ℚ) ≤ 1 - p / 100)
        (by linarith : (0:ℚ) ≤ ((xs.length : ℚ)) - 1)]
    calc (List.insertionSort (· ≤ ·) xs).getD 0 0
        ≤ (List.insertionSort (· ≤ ·) xs).getD
            ((⌊p / 100 * (((xs.length : ℚ)) - 1)⌋).toNat) 0 := by
          apply sorted_getD_le _ hs 0 _ (Nat.zero_le _)
          have hfl0 : (0 : ℤ) ≤ ⌊p / 100 * (((xs.length : ℚ)) - 1)⌋ :=
            Int.floor_nonneg.2 h0
          have h2 : (((⌊p / 100 * (((xs.length : ℚ)) - 1)⌋.toNat : ℚ))) =
              ((⌊p / 100 * (((xs.length : ℚ)) - 1)⌋ : ℤ) : ℚ) := by
            exact_mod_cast Int.toNat_of_nonneg hfl0
          by_contra hc
          push_neg at hc
          have hcq : (((List.insertionSort (· ≤ ·) xs).length : ℚ)) ≤
              ((⌊p / 100 * (((xs.length : ℚ)) - 1)⌋.toNat : ℚ)) := by
            exact_mod_cast hc
          have hiq := Int.floor_le (p / 100 * (((xs.length : ℚ)) - 1))
          rw [← h2] at hiq
          rw [hlen] at hcq
          nlinarith [mul_nonneg (by linarith : (0:ℚ) ≤ 1 - p / 100)
            (by linarith : (0:ℚ) ≤ ((xs.length : ℚ)) - 1)]
        _ ≤ _ := interpolate_ge_lo _ hs _ h0 h1

lemma exists_mem_le_fenceOf (ts : List ℚ) (hne : ts ≠ []) :
    ∃ t ∈ ts, t ≤ fenceOf ts := by
  obtain ⟨t, ht, hle⟩ :=
    exists_mem_le_percentile ts hne (p := 75) (by norm_num) (by norm_num)
  have hq : percentile ts 25 ≤ percentile ts 75 :=
    percentile_le_percentile ts hne (by norm_num) (by norm_num) (by norm_num)
  refine ⟨t, ht, ?_⟩
  simp only [fenceOf]
  linarith

/-! ### Concrete rows used by witnesses and counterexamples -/

/-- A fully valid green-flag lap. -/
def goodLap : Lap :=
  ⟨some "VER", some "RBR", some 5, some 80, some "HARD", some 1, some 3,
    none, none, some "1"⟩

/-- A lap with a missing lap time (driver VER). -/
def noTimeLap : Lap :=
  ⟨some "VER", none, some 6, none, none, none, none, none, none, none⟩

/-- A lap with a missing lap time (driver HAM). -/
def hamLap : Lap :=
  ⟨some "HAM", none, some 1, none, none, none, none, none, none, none⟩

/-! ### C1, C6, C10: the per-driver pace outlier filter -/

/-- C1 counterexample: on an input where no row has a valid lap time, the
source's `if keep_idx else x.index` fallback returns every row unchanged, so a
row with a missing lap time is kept — the claim says such rows are always
dropped first. -/
theorem pace_filter_keeps_missing_when_no_valid_times :
    per_driver_pace_filter [noTimeLap] = [noTimeLap] ∧
      noTimeLap.lapTime = none := by
  exact ⟨rfl, rfl⟩

/-- C1 (amended): whenever at least one row of the input has a non-missing lap
time, the filter keeps exactly the rows with a non-missing lap time at or
below their driver's fence `q3 + 1.5 * (q3 - q1)`, where `q1`, `q3` are the
25th/75th linear-interpolation percentiles of that driver's own valid lap
times (`driverTimes`), so each fence depends only on that driver's rows. -/
theorem per_driver_pace_filter_characterization (xs : List Lap)
    (hx : ∃ l ∈ xs, l.lapTime.isSome = true) :
    per_driver_pace_filter xs = xs.filter (fun l =>
      match l.lapTime with
      | none => false
      | some t => decide (t ≤ fenceOf (driverTimes xs l.driver))) :=
  pace_filter_eq_filter xs hx

/-- Witness for C1's amended theorem at a one-row input. -/
theorem per_driver_pace_filter_characterization_witness :
    per_driver_pace_filter [goodLap] = [goodLap].filter (fun l =>
      match l.lapTime with
      | none => false
      | some t => decide (t ≤ fenceOf (driverTimes [goodLap] l.driver))) :=
  per_driver_pace_filter_characterization [goodLap] (by decide)

/-- C6 counterexample: when every driver's rows all have missing lap times,
the `if keep_idx else x.index` fallback keeps all rows, so a driver with no
valid lap time does contribute rows — the claim's "including when every driver
in the input has only missing lap times" fails. -/
theorem pace_filter_all_missing_driver_rows_kept :
    (∀ l ∈ [hamLap], l.driver = some "HAM" → l.lapTime = none) ∧
      ∃ l ∈ per_driver_pace_filter [hamLap], l.driver = some "HAM" := by
  decide

/-- C6 (amended): provided some row of the input has a valid lap time, a
driver all of whose rows have missing lap times contributes no rows to the
filter's output. -/
theorem pace_filter_skips_invalid_drivers (xs : List Lap) (d : Option String)
    (hx : ∃ l ∈ xs, l.lapTime.isSome = true)
    (hd : ∀ l ∈ xs, l.driver = d → l.lapTime = none) :
    ∀ l ∈ per_driver_pace_filter xs, l.driver ≠ d := by
  rw [pace_filter_eq_filter xs hx]
  intro l hl hld
  have hmem := List.mem_filter.1 hl
  have hnone := hd l hmem.1 hld
  have hpred := hmem.2
  rw [hnone] at hpred
  simp at hpred

/-- Witness for C6's amended theorem: VER has a valid lap, HAM has none, and
no HAM row survives. -/
theorem pace_filter_skips_invalid_drivers_witness :
    (per_driver_pace_filter [goodLap, hamLap]).all
      (fun l => decide (l.driver ≠ some "HAM")) = true := by
  rw [List.all_eq_true]
  intro l hl
  exact decide_eq_true (pace_filter_skips_invalid_drivers [goodLap, hamLap]
    (some "HAM") (by decide) (by decide) l hl)

/-- C10: a driver with at least one valid lap time keeps at least one row:
the smallest element of the sorted sample is at most `q3`, and
`fence = q3 + 1.5 * (q3 - q1) ≥ q3` since `q1 ≤ q3` by percentile
monotonicity, so the driver's fastest valid lap is always at or below the
fence. -/
theorem pace_filter_keeps_each_valid_driver (xs : List Lap) (d : Option String)
    (h : ∃ l ∈ xs, l.driver = d ∧ l.lapTime.isSome = true) :
    ∃ l ∈ per_driver_pace_filter xs, l.driver = d := by
  obtain ⟨l0, hl0, hld, hls⟩ := h
  have hx : ∃ l ∈ xs, l.lapTime.isSome = true := ⟨l0, hl0, hls⟩
  rw [pace_filter_eq_filter xs hx]
  have htne : driverTimes xs d ≠ [] := by
    obtain ⟨t0, ht0⟩ := Option.isSome_iff_exists.1 hls
    have hmem : t0 ∈ driverTimes xs d := by
      unfold driverTimes
      refine List.mem_filterMap.2 ⟨l0, ?_, ht0⟩
      exact List.mem_filter.2 ⟨List.mem_filter.2 ⟨hl0, by simp [hld]⟩,
        by simp [ht0]⟩
    exact List.ne_nil_of_mem hmem
  obtain ⟨m, hm, hmf⟩ := exists_mem_le_fenceOf (driverTimes xs d) htne
  unfold driverTimes at hm
  obtain ⟨l1, hl1, hl1t⟩ := List.mem_filterMap.1 hm
  have hl1A : l1 ∈ xs.filter (fun l => decide (l.driver = d)) :=
    List.mem_of_mem_filter hl1
  have hl1x : l1 ∈ xs := List.mem_of_mem_filter hl1A
  have hl1d : l1.driver = d := of_decide_eq_true (List.mem_filter.1 hl1A).2
  refine ⟨l1, List.mem_filter.2 ⟨hl1x, ?_⟩, hl1d⟩
  simp only [hl1t]
  rw [hl1d]
  exact decide_eq_true hmf

/-- Witness for C10 at a one-row input. -/
theorem pace_filter_keeps_each_valid_driver_witness :
    ∃ l ∈ per_driver_pace_filter [goodLap], l.driver = some "VER" :=
  pace_filter_keeps_each_valid_driver [goodLap] (some "VER") (by decide)

/-! ### C3, C4, C5: the cleaning pipeline -/

lemma mem_of_mem_pace_filter (xs : List Lap) (l : Lap)
    (hl : l ∈ per_driver_pace_filter xs) : l ∈ xs := by
  unfold per_driver_pace_filter at hl
  split at hl
  · obtain ⟨p, hp, hpe⟩ := List.mem_map.1 hl
    rw [← hpe]
    exact withIdx_snd_mem 0 xs p (List.mem_of_mem_filter hp)
  · exact hl

lemma clean_laps_ok (fr : LapFrame) (hlt : fr.cols.lapTime = true) :
    clean_laps fr = Except.ok (per_driver_pace_filter (drop_in_out
      (((fr.rows.map (applyPresence fr.cols)).filter
        (fun l => l.lapTime.isSome)).filter
          (fun l => is_green l.trackStatus)))) := by
  unfold clean_laps
  rw [if_pos hlt]

lemma drop_in_out_mem_iff (df : List Lap) (l : Lap) :
    l ∈ drop_in_out df ↔ (l ∈ df ∧ l.pitInTime = none ∧ l.pitOutTime = none) := by
  unfold drop_in_out
  rw [List.mem_filter]
  constructor
  · rintro ⟨hm, hc⟩
    rw [Bool.and_eq_true, Option.isNone_iff_eq_none, Option.isNone_iff_eq_none] at hc
    exact ⟨hm, hc.2, hc.1⟩
  · rintro ⟨hm, hin, hout⟩
    refine ⟨hm, ?_⟩
    rw [Bool.and_eq_true, Option.isNone_iff_eq_none, Option.isNone_iff_eq_none]
    exact ⟨hout, hin⟩

lemma is_green_iff (ts : Option String) :
    is_green ts = true ↔ (ts = none ∨ ts.map String.trim = some "1") := by
  cases ts with
  | none => simp [is_green]
  | some s => simp [is_green]

/-- C3: `is_green` keeps a row exactly when the track status is missing or its
trimmed string form is `"1"`, and consequently every row of the cleaned output
has a missing status or one trimming to `"1"`. -/
theorem green_flag_filter_spec (fr : LapFrame) (out : List Lap)
    (h : clean_laps fr = Except.ok out) :
    (∀ ts : Option String, is_green ts = true ↔
      (ts = none ∨ ts.map String.trim = some "1")) ∧
    ∀ l ∈ out, l.trackStatus = none ∨ l.trackStatus.map String.trim = some "1" := by
  refine ⟨is_green_iff, ?_⟩
  intro l hl
  cases hlt : fr.cols.lapTime with
  | false =>
    unfold clean_laps at h
    rw [if_neg (by simp [hlt])] at h
    exact Except.noConfusion h
  | true =>
    rw [clean_laps_ok fr hlt] at h
    have hXo : (per_driver_pace_filter (drop_in_out
        (((fr.rows.map (applyPresence fr.cols)).filter
          (fun l => l.lapTime.isSome)).filter
            (fun l => is_green l.trackStatus)))) = out := by
      injection h
    rw [← hXo] at hl
    have h1 := mem_of_mem_pace_filter _ _ hl
    have h2 := ((drop_in_out_mem_iff _ l).1 h1).1
    exact (is_green_iff l.trackStatus).1 (List.mem_filter.1 h2).2

/-- Witness for C3 at a concrete status and an empty frame. -/
theorem green_flag_filter_spec_witness :
    is_green (some " 1 ") = true ↔
      ((some " 1 " : Option String) = none ∨
        (some " 1 " : Option String).map String.trim = some "1") :=
  (green_flag_filter_spec ⟨ColPresence.all, []⟩ [] rfl).1 (some " 1 ")

/-- C4: `drop_in_out` keeps a row exactly when both pit timestamps are null,
and consequently no cleaned row carries a pit-in or pit-out time, regardless
of its green-flag status. -/
theorem in_out_filter_spec (fr : LapFrame) (out : List Lap)
    (h : clean_laps fr = Except.ok out) :
    (∀ (df : List Lap) (l : Lap), l ∈ drop_in_out df ↔
      (l ∈ df ∧ l.pitInTime = none ∧ l.pitOutTime = none)) ∧
    ∀ l ∈ out, l.pitInTime = none ∧ l.pitOutTime = none := by
  refine ⟨drop_in_out_mem_iff, ?_⟩
  intro l hl
  cases hlt : fr.cols.lapTime with
  | false =>
    unfold clean_laps at h
    rw [if_neg (by simp [hlt])] at h
    exact Except.noConfusion h
  | true =>
    rw [clean_laps_ok fr hlt] at h
    have hXo : (per_driver_pace_filter (drop_in_out
        (((fr.rows.map (applyPresence fr.cols)).filter
          (fun l => l.lapTime.isSome)).filter
            (fun l => is_green l.trackStatus)))) = out := by
      injection h
    rw [← hXo] at hl
    have h1 := mem_of_mem_pace_filter _ _ hl
    exact ((drop_in_out_mem_iff _ l).1 h1).2

/-- Witness for C4 at a concrete row and an empty frame. -/
theorem in_out_filter_spec_witness :
    goodLap ∈ drop_in_out [goodLap] ↔
      (goodLap ∈ [goodLap] ∧ goodLap.pitInTime = none ∧
        goodLap.pitOutTime = none) :=
  (in_out_filter_spec ⟨ColPresence.all, []⟩ [] rfl).1 [goodLap] goodLap

/-- A frame whose `LapTime` column is absent. -/
def frameNoLapTime : LapFrame :=
  ⟨⟨true, true, true, false, true, true, true, true, true, true⟩, [goodLap]⟩

/-- A frame whose `TrackStatus` column is absent (and `LapTime` present). -/
def frameNoStatus : LapFrame :=
  ⟨⟨true, true, true, true, true, true, true, true, true, false⟩, [goodLap]⟩

/-- C5 counterexample: with the `LapTime` column absent, the synthesized
`pd.NA` column is object dtype, so `x["LapTime"].dt.total_seconds()` inside
`per_driver_pace_filter` raises `AttributeError` and the cleaning pipeline
aborts — it does not complete with a cleaned table, as the claim states for
every input missing named columns. -/
theorem clean_laps_crashes_without_laptime :
    frameNoLapTime.cols.lapTime = false ∧
      clean_laps frameNoLapTime =
        Except.error "Can only use .dt accessor with datetimelike values" :=
  ⟨rfl, rfl⟩

/-- C5 (amended): `clean_laps` synthesizes every absent named column as
all-missing before filtering, and — provided the `LapTime` column itself was
present in the input — completes with an `ok` (possibly empty) cleaned table,
every synthesized cell of an absent column being missing.  When `LapTime` is
absent, the `.dt` accessor on its synthesized object-dtype column raises
`AttributeError` and the job fails instead. -/
theorem clean_laps_synthesizes_missing_columns (fr : LapFrame)
    (hlt : fr.cols.lapTime = true) :
    (clean_laps fr).isOk = true ∧
    ∀ l ∈ fr.rows.map (applyPresence fr.cols),
      (fr.cols.driver = false → l.driver = none) ∧
      (fr.cols.team = false → l.team = none) ∧
      (fr.cols.lapNumber = false → l.lapNumber = none) ∧
      (fr.cols.lapTime = false → l.lapTime = none) ∧
      (fr.cols.compound = false → l.compound = none) ∧
      (fr.cols.stint = false → l.stint = none) ∧
      (fr.cols.tyreLife = false → l.tyreLife = none) ∧
      (fr.cols.pitInTime = false → l.pitInTime = none) ∧
      (fr.cols.pitOutTime = false → l.pitOutTime = none) ∧
      (fr.cols.trackStatus = false → l.trackStatus = none) := by
  constructor
  · rw [clean_laps_ok fr hlt]
    rfl
  · intro l hl
    obtain ⟨l0, hl0, rfl⟩ := List.mem_map.1 hl
    refine ⟨?_, ?_, ?_, ?_, ?_, ?_, ?_, ?_, ?_, ?_⟩ <;>
      (intro hc; simp [applyPresence, hc])

/-- Witness for C5's amended theorem: with only the `TrackStatus` column
absent, cleaning returns `ok` and the synthesized status cell is missing. -/
theorem clean_laps_synthesizes_missing_columns_witness :
    (clean_laps frameNoStatus).isOk = true ∧
      (applyPresence frameNoStatus.cols goodLap).trackStatus = none :=
  ⟨(clean_laps_synthesizes_missing_columns frameNoStatus rfl).1,
    ((clean_laps_synthesizes_missing_columns frameNoStatus rfl).2
      (applyPresence frameNoStatus.cols goodLap)
      (by simp [frameNoStatus])).2.2.2.2.2.2.2.2.2 rfl⟩

/-! ### C2: the degradation fit emits one row per qualifying compound -/

lemma countP_eq_ite_of_nodup (L : List String) (hL : L.Nodup) (c : String) :
    L.countP (fun x => decide (x = c)) = if c ∈ L then 1 else 0 := by
  induction L with
  | nil => simp
  | cons a L ih =>
    rw [List.countP_cons]
    rcases List.nodup_cons.1 hL with ⟨hna, hnd⟩
    by_cases hac : a = c
    · subst hac
      rw [ih hnd]
      simp [hna]
    · rw [ih hnd]
      have : ¬ c = a := fun h => hac h.symm
      simp [List.mem_cons, hac, this]

lemma mem_degCompounds_of_group_pos (xs : List Lap) (c : String)
    (h : 0 < (degGroup xs c).length) : c ∈ degCompounds xs := by
  obtain ⟨l, hl⟩ := List.exists_mem_of_length_pos h
  have hli : l ∈ degInput xs := List.mem_of_mem_filter hl
  have hlc : l.compound = some c :=
    of_decide_eq_true (List.mem_filter.1 hl).2
  exact List.mem_dedup.2 (List.mem_filterMap.2 ⟨l, hli, hlc⟩)

lemma degFitRows_count (xs : List Lap) (c : String) :
    (degFitRows xs).countP (fun r => decide (r.compound = c)) =
      if 20 ≤ (degGroup xs c).length ∧
          3 ≤ ((degGroup xs c).filterMap (fun l => l.tyreLife)).dedup.length
      then 1 else 0 := by
  unfold degFitRows
  rw [List.countP_map]
  have hfun : List.countP ((fun r => decide (r.compound = c)) ∘ fitRow xs)
      ((List.insertionSort (fun a b : String => a ≤ b)
        (degCompounds xs)).filter (fun c' => degQualifies xs c')) =
      List.countP (fun a => decide (a = c))
      ((List.insertionSort (fun a b : String => a ≤ b)
        (degCompounds xs)).filter (fun c' => degQualifies xs c')) := rfl
  rw [hfun]
  have hnodup : ((List.insertionSort (fun a b : String => a ≤ b)
      (degCompounds xs)).filter (fun c' => degQualifies xs c')).Nodup :=
    (((List.perm_insertionSort _ _).nodup_iff).2
      (List.nodup_dedup _)).filter _
  rw [countP_eq_ite_of_nodup _ hnodup c]
  by_cases hcond : 20 ≤ (degGroup xs c).length ∧
      3 ≤ ((degGroup xs c).filterMap (fun l => l.tyreLife)).dedup.length
  · rw [if_pos hcond, if_pos]
    refine List.mem_filter.2 ⟨?_, ?_⟩
    · exact (List.perm_insertionSort _ _).mem_iff.2
        (mem_degCompounds_of_group_pos xs c (by omega))
    · unfold degQualifies
      rw [Bool.and_eq_true]
      exact ⟨decide_eq_true hcond.1, decide_eq_true hcond.2⟩
  · rw [if_neg hcond, if_neg]
    intro hmem
    have hq : degQualifies xs c = true := (List.mem_filter.1 hmem).2
    unfold degQualifies at hq
    rw [Bool.and_eq_true] at hq
    exact hcond ⟨of_decide_eq_true hq.1, of_decide_eq_true hq.2⟩

/-- Nineteen valid laps on one compound with tyre ages 1..19: one row short of
the fit's 20-row threshold, so no compound qualifies. -/
def nineteenLaps : List Lap :=
  (List.range 19).map (fun i =>
    ⟨some "VER", some "RBR", some ((i : ℚ) + 1), some 80, some "SOFT", some 1,
      some ((i : ℚ) + 1), none, none, some "1"⟩)

/-- C2 counterexample: on an input whose only compound has 19 qualifying rows
— the claim's own case — the `results` list is empty, `pd.DataFrame([])` has
no columns, and `.sort_values("Compound")` raises `KeyError: 'Compound'`: the
job aborts and there is no output table at all, rather than an output with no
row for that compound. -/
theorem simple_deg_fit_aborts_on_19_rows :
    (degGroup nineteenLaps "SOFT").length = 19 ∧
      simple_deg_fit nineteenLaps = Except.error "KeyError: Compound" :=
  ⟨rfl, rfl⟩

/-- Twenty-one valid laps on one compound with tyre ages 0..20: enough for a
fit, so the fitter returns a frame. -/
def twentyOneLaps : List Lap :=
  (List.range 21).map (fun i =>
    ⟨some "VER", some "RBR", some (i : ℚ), some 80, some "SOFT", some 1,
      some (i : ℚ), none, none, some "1"⟩)

/-- C2 (amended): whenever the degradation fit returns an output table (which
it does exactly when at least one compound qualifies; with no qualifying
compound the empty-frame `sort_values("Compound")` raises `KeyError` and the
job aborts), that table contains exactly one row per compound whose group —
after dropping rows missing lap time, tyre age or compound — has at least 20
rows and at least 3 distinct tyre-age values, and no row for any other
compound; in particular a compound with 19 qualifying rows contributes no
row. -/
theorem simple_deg_fit_row_count (xs : List Lap) (out : List DegRow)
    (h : simple_deg_fit xs = Except.ok out) (c : String) :
    out.countP (fun r => decide (r.compound = c)) =
      if 20 ≤ (degGroup xs c).length ∧
          3 ≤ ((degGroup xs c).filterMap (fun l => l.tyreLife)).dedup.length
      then 1 else 0 := by
  unfold simple_deg_fit at h
  split at h
  · exact Except.noConfusion h
  · have hout : degFitRows xs = out := by injection h
    rw [← hout]
    exact degFitRows_count xs c

/-- Witness for C2's amended theorem at a concrete 21-lap input. -/
theorem simple_deg_fit_row_count_witness :
    (degFitRows twentyOneLaps).countP
      (fun r => decide (r.compound = "SOFT")) =
      if 20 ≤ (degGroup twentyOneLaps "SOFT").length ∧
          3 ≤ ((degGroup twentyOneLaps "SOFT").filterMap
            (fun l => l.tyreLife)).dedup.length
      then 1 else 0 :=
  simple_deg_fit_row_count twentyOneLaps (degFitRows twentyOneLaps)
    (by unfold simple_deg_fit; rw [if_neg (by decide)]) "SOFT"

/-! ### C7: stint-summary lap counts -/

lemma sum_map_add_nat {β : Type} (L : List β) (f g : β → ℕ) :
    (L.map (fun k => f k + g k)).sum = (L.map f).sum + (L.map g).sum := by
  induction L with
  | nil => rfl
  | cons a L ih =>
    simp only [List.map_cons, List.sum_cons, ih]
    omega

lemma sum_indicator_of_nodup {β : Type} [DecidableEq β] (L : List β)
    (hL : L.Nodup) (b : β) :
    (L.map (fun k => if b = k then (1 : ℕ) else 0)).sum =
      if b ∈ L then 1 else 0 := by
  induction L with
  | nil => simp
  | cons a L ih =>
    rcases List.nodup_cons.1 hL with ⟨hna, hnd⟩
    by_cases hba : b = a
    · subst hba
      simp [List.map_cons, List.sum_cons, ih hnd, hna]
    · simp [List.map_cons, List.sum_cons, ih hnd, hba, List.mem_cons]

lemma sum_countP_groups {α β : Type} [DecidableEq β] (κ : α → β)
    (flag : α → Bool) (P : β → Bool) (K : List β) (hK : K.Nodup) :
    ∀ df : List α, (∀ a ∈ df, κ a ∈ K) →
      ((K.filter P).map
        (fun k => df.countP (fun a => decide (κ a = k) && flag a))).sum =
        df.countP (fun a => P (κ a) && flag a) := by
  intro df
  induction df with
  | nil => intro _; simp
  | cons a df ih =>
    intro hcov
    have hcov2 : ∀ x ∈ df, κ x ∈ K := fun x hx =>
      hcov x (List.mem_cons_of_mem _ hx)
    have hka : κ a ∈ K := hcov a (List.mem_cons_self _ _)
    simp only [List.countP_cons]
    rw [sum_map_add_nat, ih hcov2]
    congr 1
    cases hf : flag a with
    | false => simp
    | true =>
      simp only [Bool.and_true, decide_eq_true_eq]
      rw [sum_indicator_of_nodup (K.filter P) (hK.filter P) (κ a)]
      by_cases hp : P (κ a) = true
      · simp [List.mem_filter, hka, hp]
      · simp [List.mem_filter, hp]

/-- C7 counterexample: a cleaned row whose `LapNumber` is missing is counted
by the `("LapNumber", "count")` aggregation as zero, so the per-driver sum of
group lap counts (0) is not the driver's cleaned row count (1). -/
def aloLap : Lap :=
  ⟨some "ALO", none, none, none, none, none, none, none, none, none⟩

theorem stint_summary_count_misses_null_lap_numbers :
    (((stint_summary [aloLap]).filter
      (fun r => decide (r.driver = some "ALO"))).map (fun r => r.laps)).sum = 0 ∧
    ([aloLap].filter (fun l => decide (l.driver = some "ALO"))).length = 1 := by
  decide

/-- C7 (amended): per driver, the stint-summary lap counts sum to the number
of that driver's cleaned rows that carry a non-missing lap number (pandas
`count` counts non-null cells; the two coincide whenever every cleaned row has
a lap number). -/
theorem stint_summary_laps_sum (df : List Lap) (d : Option String) :
    (((stint_summary df).filter (fun r => decide (r.driver = d))).map
      (fun r => r.laps)).sum =
      (df.filter (fun l => decide (l.driver = d) && l.lapNumber.isSome)).length := by
  unfold stint_summary
  rw [List.filter_map (stintAgg df), List.map_map]
  have hconv : ∀ T : List (Option String × Option ℚ × Option String),
      ((T.filter ((fun r => decide (r.driver = d)) ∘ stintAgg df)).map
        ((fun r => r.laps) ∘ stintAgg df)) =
      ((T.filter (fun k => decide (k.1 = d))).map
        (fun k => ((stintGroup df k).filterMap (fun l => l.lapNumber)).length)) :=
    fun T => rfl
  rw [hconv]
  have hperm : (List.insertionSort (fun k k' => stintKeyLEb k k' = true)
      (stintKeys df)).Perm (stintKeys df) := List.perm_insertionSort _ _
  rw [((hperm.filter _).map _).sum_eq]
  have hmapc : ((stintKeys df).filter (fun k => decide (k.1 = d))).map
        (fun k => ((stintGroup df k).filterMap (fun l => l.lapNumber)).length) =
      ((stintKeys df).filter (fun k => decide (k.1 = d))).map
        (fun k => df.countP
          (fun l => decide (stintKey l = k) && l.lapNumber.isSome)) := by
    apply List.map_congr_left
    intro k _
    rw [List.length_filterMap_eq_countP]
    unfold stintGroup
    rw [List.countP_filter]
    apply List.countP_congr
    intro a _
    cases ha : a.lapNumber.isSome <;> cases hk2 : decide (stintKey a = k) <;>
      simp [ha, hk2]
  rw [hmapc]
  rw [sum_countP_groups stintKey (fun l => l.lapNumber.isSome)
    (fun k => decide (k.1 = d)) (stintKeys df) (List.nodup_dedup _) df
    (fun a ha => List.mem_dedup.2 (List.mem_map.2 ⟨a, ha, rfl⟩))]
  rw [← List.countP_eq_length_filter]
  rfl

/-! ### C8: pit-stop numbering -/

lemma optLEb_total {β : Type} [LE β] [DecidableRel (α := β) (· ≤ ·)]
    (htot : ∀ u v : β, u ≤ v ∨ v ≤ u) (x y : Option β) :
    optLEb x y = true ∨ optLEb y x = true := by
  rcases x with _ | a <;> rcases y with _ | b <;> simp [optLEb]
  exact htot a b

lemma optLTb_trans {β : Type} [LT β] [DecidableRel (α := β) (· < ·)]
    (htr : ∀ u v w : β, u < v → v < w → u < w) {x y z : Option β}
    (h1 : optLTb x y = true) (h2 : optLTb y z = true) : optLTb x z = true := by
  rcases x with _ | a <;> rcases y with _ | b <;> rcases z with _ | c <;>
    simp_all [optLTb]
  exact htr a b c h1 h2

lemma optLEb_trans {β : Type} [LE β] [DecidableRel (α := β) (· ≤ ·)]
    (htr : ∀ u v w : β, u ≤ v → v ≤ w → u ≤ w) {x y z : Option β}
    (h1 : optLEb x y = true) (h2 : optLEb y z = true) : optLEb x z = true := by
  rcases x with _ | a <;> rcases y with _ | b <;> rcases z with _ | c <;>
    simp_all [optLEb]
  exact htr a b c h1 h2

instance : IsTotal Lap pitLE where
  total a b := by
    unfold pitLE pitLEb
    rcases ha : a.driver with _ | x <;> rcases hb : b.driver with _ | y <;>
      simp only [ha, hb, optLTb]
    · rcases optLEb_total (fun u v => le_total u v) a.lapNumber b.lapNumber with
        hl | hl
      · refine Or.inl ?_
        rw [Bool.or_eq_true]
        refine Or.inr ?_
        rw [Bool.and_eq_true]
        exact ⟨by simp, hl⟩
      · refine Or.inr ?_
        rw [Bool.or_eq_true]
        refine Or.inr ?_
        rw [Bool.and_eq_true]
        exact ⟨by simp, hl⟩
    · simp
    · simp
    · rcases lt_trichotomy x y with h | h | h
      · refine Or.inl ?_
        rw [Bool.or_eq_true]
        exact Or.inl (decide_eq_true h)
      · subst h
        rcases optLEb_total (fun u v => le_total u v) a.lapNumber b.lapNumber with
          hl | hl
        · refine Or.inl ?_
          rw [Bool.or_eq_true]
          refine Or.inr ?_
          rw [Bool.and_eq_true]
          exact ⟨by simp, hl⟩
        · refine Or.inr ?_
          rw [Bool.or_eq_true]
          refine Or.inr ?_
          rw [Bool.and_eq_true]
          exact ⟨by simp, hl⟩
      · refine Or.inr ?_
        rw [Bool.or_eq_true]
        exact Or.inl (decide_eq_true h)

instance : IsTrans Lap pitLE where
  trans a b c hab hbc := by
    unfold pitLE pitLEb at hab hbc ⊢
    rw [Bool.or_eq_true] at hab hbc ⊢
    rcases hab with h1 | h1 <;> rcases hbc with h2 | h2
    · exact Or.inl (optLTb_trans (fun _ _ _ hu hv => lt_trans hu hv) h1 h2)
    · rw [Bool.and_eq_true] at h2
      have he2 := of_decide_eq_true h2.1
      rw [← he2]
      exact Or.inl h1
    · rw [Bool.and_eq_true] at h1
      have he1 := of_decide_eq_true h1.1
      rw [he1]
      exact Or.inl h2
    · rw [Bool.and_eq_true] at h1 h2
      refine Or.inr ?_
      rw [Bool.and_eq_true]
      exact ⟨decide_eq_true
        ((of_decide_eq_true h1.1).trans (of_decide_eq_true h2.1)),
        optLEb_trans (fun _ _ _ hu hv => le_trans hu hv) h1.2 h2.2⟩

lemma cumcount_map_lap : ∀ (rows : List Lap) (cnt : String → ℕ),
    (cumcountAux cnt rows).map (fun r => r.lap) = rows := by
  intro rows
  induction rows with
  | nil => intro cnt; rfl
  | cons l ls ih =>
    intro cnt
    rcases hld : l.driver with _ | e <;> simp [cumcountAux, hld, ih]

lemma cumcount_filter_stops (d : String) :
    ∀ (rows : List Lap) (cnt : String → ℕ),
      (((cumcountAux cnt rows).filter
        (fun r => decide (r.lap.driver = some d))).map (fun r => r.stop)) =
      (List.range' (cnt d + 1)
        (rows.countP (fun l => decide (l.driver = some d)))).map some := by
  intro rows
  induction rows with
  | nil => intro cnt; rfl
  | cons l ls ih =>
    intro cnt
    rcases hld : l.driver with _ | e
    · have hcount : (l :: ls).countP (fun l2 => decide (l2.driver = some d)) =
          ls.countP (fun l2 => decide (l2.driver = some d)) := by
        rw [List.countP_cons]
        simp [hld]
      rw [hcount]
      simp only [cumcountAux, hld]
      rw [List.filter_cons]
      simp only [hld, Option.some.injEq, decide_eq_true_eq, reduceIte]
      exact ih cnt
    · by_cases hed : e = d
      · subst hed
        rw [show (l :: ls).countP (fun l2 => decide (l2.driver = some e)) =
            ls.countP (fun l2 => decide (l2.driver = some e)) + 1 from by
          rw [List.countP_cons]; simp [hld]]
        rw [List.range'_succ, List.map_cons]
        simp only [cumcountAux, hld]
        rw [List.filter_cons]
        rw [if_pos (by simp [hld] :
          (decide ((⟨l, some (cnt e + 1)⟩ : PitRow).lap.driver = some e)) = true)]
        rw [List.map_cons]
        rw [ih (fun e2 => if e2 = e then cnt e + 1 else cnt e2)]
        simp
      · have hde : ¬ (d = e) := fun h => hed h.symm
        rw [show (l :: ls).countP (fun l2 => decide (l2.driver = some d)) =
            ls.countP (fun l2 => decide (l2.driver = some d)) from by
          rw [List.countP_cons]; simp [hld, hed]]
        simp only [cumcountAux, hld]
        rw [List.filter_cons]
        rw [if_neg (by simp [hld, hed] :
          ¬ ((decide ((⟨l, some (cnt e + 1)⟩ : PitRow).lap.driver = some d)) = true))]
        rw [ih (fun e2 => if e2 = e then cnt e + 1 else cnt e2)]
        simp [hde]

lemma pit_table_sorted_pairwise (laps : List Lap) (d : String) :
    ((pit_table_from_laps laps).filter
      (fun r => decide (r.lap.driver = some d))).Pairwise
      (fun r r' => optLEb r.lap.lapNumber r'.lap.lapNumber = true) := by
  unfold pit_table_from_laps
  have hsorted : List.Sorted pitLE
      (List.insertionSort pitLE (laps.filter (fun l => l.pitInTime.isSome))) :=
    List.sorted_insertionSort pitLE _
  have hmap := cumcount_map_lap
    (List.insertionSort pitLE (laps.filter (fun l => l.pitInTime.isSome)))
    (fun _ => 0)
  have hpw : (cumcountAux (fun _ => 0)
      (List.insertionSort pitLE
        (laps.filter (fun l => l.pitInTime.isSome)))).Pairwise
      (fun r r' => pitLE r.lap r'.lap) := by
    rw [← List.pairwise_map (f := fun r : PitRow => r.lap)]
    rw [hmap]
    exact hsorted
  refine (hpw.filter _).imp_of_mem ?_
  intro a b ha hb hab
  have hda : a.lap.driver = some d := of_decide_eq_true (List.mem_filter.1 ha).2
  have hdb : b.lap.driver = some d := of_decide_eq_true (List.mem_filter.1 hb).2
  unfold pitLE pitLEb at hab
  rw [hda, hdb] at hab
  simpa [optLTb, lt_irrefl] using hab

/-- C8: per driver, the pit-stop table's stop numbers are exactly the
contiguous sequence `1..N`, where `N` is that driver's number of rows with a
non-null `PitInTime`, assigned in `(Driver, InLap)`-sorted order, so the
in-lap numbers are non-decreasing along the numbering (stop numbers strictly
increase with the in-lap). -/
theorem pit_stop_numbers_contiguous (laps : List Lap) (d : String) :
    ((((pit_table_from_laps laps).filter
      (fun r => decide (r.lap.driver = some d))).map (fun r => r.stop)) =
      (List.range' 1
        ((laps.filter (fun l =>
          decide (l.driver = some d) && l.pitInTime.isSome)).length)).map some) ∧
    ((pit_table_from_laps laps).filter
      (fun r => decide (r.lap.driver = some d))).Pairwise
      (fun r r' => optLEb r.lap.lapNumber r'.lap.lapNumber = true) := by
  constructor
  · unfold pit_table_from_laps
    rw [cumcount_filter_stops d _ (fun _ => 0)]
    have hc : (List.insertionSort pitLE
        (laps.filter (fun l => l.pitInTime.isSome))).countP
          (fun l => decide (l.driver = some d)) =
        (laps.filter (fun l =>
          decide (l.driver = some d) && l.pitInTime.isSome)).length := by
      rw [(List.perm_insertionSort pitLE _).countP_eq]
      rw [List.countP_filter, List.countP_eq_length_filter]
    rw [hc]
  · exact pit_table_sorted_pairwise laps d

/-! ### C9: missing-file error and the top-level handler -/

/-- C9: when the raw laps file is absent the job fails with the distinct
`FileNotFoundError` message (which literally contains the fetch script's name
`01_fetch_data.py`), the handler prints `error: <message>` to the error stream
and exits with status 1; and any other error the job body raises is caught by
the same handler, printed the same way, and also terminates with exit code 1. -/
theorem main_exit_behavior (env : JobEnv) :
    (env.rawLaps = none →
      main_run env =
        ⟨1, some "error: raw laps not found; run scripts/01_fetch_data.py first"⟩ ∧
      ∃ s t : List Char,
        s ++ "01_fetch_data.py".toList ++ t =
          "raw laps not found; run scripts/01_fetch_data.py first".toList) ∧
    ∀ e, runJob env = Except.error e →
      main_run env = ⟨1, some ("error: " ++ e)⟩ := by
  constructor
  · intro hmiss
    constructor
    · unfold main_run runJob read_laps
      rw [hmiss]
      rfl
    · exact ⟨"raw laps not found; run scripts/".toList, " first".toList,
        by decide⟩
  · intro e he
    unfold main_run
    rw [he]

/-- Witness for C9: the concrete empty environment, both for the missing-file
message and (via the job body's actual error) for the generic handler. -/
theorem main_exit_behavior_witness :
    main_run ⟨none⟩ =
      ⟨1, some "error: raw laps not found; run scripts/01_fetch_data.py first"⟩ ∧
    main_run ⟨none⟩ =
      ⟨1, some ("error: " ++
        "raw laps not found; run scripts/01_fetch_data.py first")⟩ :=
  ⟨((main_exit_behavior ⟨none⟩).1 rfl).1,
    (main_exit_behavior ⟨none⟩).2
      "raw laps not found; run scripts/01_fetch_data.py first" rfl⟩
